import Mathlib

/-!
Shallow embedding of the toy-browser core pipeline (CSS parser, style
resolver, block layout engine) from `src/css.rs`, `src/dom.rs`,
`src/style.rs`, `src/layout.rs`.  Rust `f32` pixel values are modelled as
exact rationals (`ℚ`); `HashMap`s are modelled as association lists whose
lookup returns the most recent binding (observationally `HashMap::get`
after `insert`).
-/

namespace ToyBrowser

/-! ## CSS data model (`src/css.rs`) -/

inductive Unit where
  | Px
deriving DecidableEq, Repr

structure Color where
  r : Nat
  g : Nat
  b : Nat
  a : Nat
deriving DecidableEq, Repr

inductive Value where
  | Keyword (s : String)
  | Length (f : ℚ) (u : Unit)
  | ColorValue (c : Color)
deriving DecidableEq, Repr

structure Declaration where
  name : String
  value : Value
deriving DecidableEq, Repr

/-- `SimpleSelector`; the Rust field `class` is a Lean keyword, renamed `classes`. -/
structure SimpleSelector where
  tag_name : Option String
  id : Option String
  classes : List String
deriving DecidableEq, Repr

inductive Selector where
  | Simple (s : SimpleSelector)
deriving DecidableEq, Repr

structure Rule where
  selectors : List Selector
  declarations : List Declaration
deriving DecidableEq, Repr

structure Stylesheet where
  rules : List Rule
deriving DecidableEq, Repr

abbrev Specificity := Nat × Nat × Nat

/-- `Selector::specificity`: counts of id, class, tag components. -/
def Selector.specificity : Selector → Specificity
  | .Simple simple => (simple.id.toList.length, simple.classes.length, simple.tag_name.toList.length)

/-- `Value::to_px`: the length for `Length(_, Px)`, `0` for any other variant. -/
def Value.to_px : Value → ℚ
  | .Length f .Px => f
  | _ => 0

/-- Lexicographic `≤` on `Specificity`, as Rust's derived `Ord` on a 3-tuple. -/
def spec_le (s t : Specificity) : Bool :=
  if s.1 < t.1 then true
  else if t.1 < s.1 then false
  else if s.2.1 < t.2.1 then true
  else if t.2.1 < s.2.1 then false
  else decide (s.2.2 ≤ t.2.2)

/-- Insert `x` after every leading element `y` with `le y x`; helper of `sort_by_le`. -/
def insert_by_le (le : α → α → Bool) (x : α) : List α → List α
  | [] => [x]
  | y :: ys => if le y x then y :: insert_by_le le x ys else x :: y :: ys

/-- Models `slice::sort_by` with a total comparator: a stable ascending sort
(elements are processed in order, each placed after all earlier elements
whose key is `≤` its own). -/
def sort_by_le (le : α → α → Bool) (l : List α) : List α :=
  l.foldl (fun acc x => insert_by_le le x acc) []

/-! ## DOM (`src/dom.rs`) -/

/-- `AttrMap = HashMap<String, String>` as an association list; lookup below. -/
abbrev AttrMap := List (String × String)

structure ElementData where
  tag_name : String
  attributes : AttrMap
deriving DecidableEq, Repr

inductive NodeType where
  | Text (s : String)
  | Element (e : ElementData)
deriving DecidableEq, Repr

inductive Node where
  | mk (childlen : List Node) (node_type : NodeType)

def Node.childlen : Node → List Node
  | .mk c _ => c

def Node.node_type : Node → NodeType
  | .mk _ t => t

/-- `HashMap::get` on an attribute map. -/
def attr_get (m : AttrMap) (k : String) : Option String :=
  (m.find? (fun p => p.1 == k)).map (fun p => p.2)

/-- `ElementData::id`. -/
def ElementData.id (e : ElementData) : Option String :=
  attr_get e.attributes "id"

/-- `ElementData::classes`: the `class` attribute split on single spaces
(a `HashSet` in Rust; membership-observable as a list). -/
def ElementData.classes (e : ElementData) : List String :=
  match attr_get e.attributes "class" with
  | some classlist => classlist.splitOn " "
  | none => []

/-! ## Style resolver (`src/style.rs`) -/

/-- `PropertyMap = HashMap<String, Value>` as an association list;
`pm_get` returns the most recent insertion. -/
abbrev PropertyMap := List (String × Value)

/-- `HashMap::insert`: the new binding shadows any earlier one. -/
def pm_insert (m : PropertyMap) (k : String) (v : Value) : PropertyMap :=
  (k, v) :: m

/-- `HashMap::get`. -/
def pm_get (m : PropertyMap) (k : String) : Option Value :=
  (m.find? (fun p => p.1 == k)).map (fun p => p.2)

inductive StyledNode where
  | mk (node : Node) (specified_values : PropertyMap) (children : List StyledNode)

def StyledNode.node : StyledNode → Node
  | .mk n _ _ => n

def StyledNode.specified_values : StyledNode → PropertyMap
  | .mk _ v _ => v

def StyledNode.children : StyledNode → List StyledNode
  | .mk _ _ c => c

/-- `StyledNode::value`. -/
def StyledNode.value (s : StyledNode) (name : String) : Option Value :=
  pm_get s.specified_values name

/-- `StyledNode::lookup`. -/
def StyledNode.lookup (s : StyledNode) (name fallback : String) (default : Value) : Value :=
  (s.value name).getD ((s.value fallback).getD default)

inductive Display where
  | Inline
  | Block
  | None
deriving DecidableEq, Repr

/-- `StyledNode::display`. -/
def StyledNode.display (s : StyledNode) : Display :=
  match s.value "display" with
  | some (Value.Keyword kw) =>
    if kw = "block" then Display.Block
    else if kw = "none" then Display.None
    else Display.Inline
  | _ => Display.Inline

/-- `matchs_simple_selector`. -/
def matchs_simple_selector (elem : ElementData) (selector : SimpleSelector) : Bool :=
  if selector.tag_name.any (fun name => elem.tag_name != name) then false
  else if selector.id.any (fun i => elem.id != some i) then false
  else if selector.classes.any (fun c => !(elem.classes.contains c)) then false
  else true

/-- `matchs`. -/
def matchs (elem : ElementData) (selector : Selector) : Bool :=
  match selector with
  | .Simple simple_selector => matchs_simple_selector elem simple_selector

/-- `match_rule`: the first matching selector's specificity tags the rule. -/
def match_rule (elem : ElementData) (rule : Rule) : Option (Specificity × Rule) :=
  (rule.selectors.find? (fun selector => matchs elem selector)).map
    (fun selector => (selector.specificity, rule))

/-- `matching_rules`. -/
def matching_rules (elem : ElementData) (stylesheet : Stylesheet) : List (Specificity × Rule) :=
  stylesheet.rules.filterMap (fun rule => match_rule elem rule)

/-- `specified_values`: sort matched rules by ascending specificity (stable),
then insert every declaration in order, later insertions shadowing earlier. -/
def specified_values (elem : ElementData) (stylesheet : Stylesheet) : PropertyMap :=
  let rules := sort_by_le (fun a b => spec_le a.1 b.1) (matching_rules elem stylesheet)
  rules.foldl
    (fun values sr =>
      sr.2.declarations.foldl (fun vs declaration => pm_insert vs declaration.name declaration.value) values)
    []

mutual

/-- `style_tree`. -/
def style_tree (root : Node) (stylesheet : Stylesheet) : StyledNode :=
  match root with
  | Node.mk childlen node_type =>
    StyledNode.mk (Node.mk childlen node_type)
      (match node_type with
        | NodeType.Element elem => specified_values elem stylesheet
        | NodeType.Text _ => [])
      (style_tree_children childlen stylesheet)

/-- The `children.iter().map(...).collect()` of `style_tree`. -/
def style_tree_children : List Node → Stylesheet → List StyledNode
  | [], _ => []
  | c :: cs, stylesheet => style_tree c stylesheet :: style_tree_children cs stylesheet

end

/-! ## Layout engine (`src/layout.rs`) -/

structure Rect where
  x : ℚ
  y : ℚ
  width : ℚ
  height : ℚ
deriving DecidableEq, Repr

structure EdgeSizes where
  left : ℚ
  right : ℚ
  top : ℚ
  bottom : ℚ
deriving DecidableEq, Repr

structure Dimensions where
  content : Rect
  padding : EdgeSizes
  border : EdgeSizes
  margin : EdgeSizes
deriving DecidableEq, Repr

/-- `Rect::default()`: all zero. -/
def default_rect : Rect := ⟨0, 0, 0, 0⟩

/-- `EdgeSizes::default()`: all zero. -/
def default_edges : EdgeSizes := ⟨0, 0, 0, 0⟩

/-- `Dimensions::default()`: all zero. -/
def default_dimensions : Dimensions := ⟨default_rect, default_edges, default_edges, default_edges⟩

/-- `BoxType`; in Lean the `&StyledNode` reference is the node value itself. -/
inductive BoxType where
  | BlockNode (node : StyledNode)
  | InlineNode (node : StyledNode)
  | AnonymousBlock

inductive LayoutBox where
  | mk (dimensions : Dimensions) (box_type : BoxType) (children : List LayoutBox)

def LayoutBox.dimensions : LayoutBox → Dimensions
  | .mk d _ _ => d

def LayoutBox.box_type : LayoutBox → BoxType
  | .mk _ t _ => t

def LayoutBox.children : LayoutBox → List LayoutBox
  | .mk _ _ c => c

/-- `Rect::expended_by`. -/
def Rect.expended_by (self : Rect) (edge : EdgeSizes) : Rect :=
  { x := self.x - edge.left
    y := self.y - edge.top
    width := self.width + edge.left + edge.right
    height := self.height + edge.top + edge.bottom }

/-- `Dimensions::padding_box`. -/
def Dimensions.padding_box (self : Dimensions) : Rect :=
  self.content.expended_by self.padding

/-- `Dimensions::border_box`. -/
def Dimensions.border_box (self : Dimensions) : Rect :=
  self.padding_box.expended_by self.border

/-- `Dimensions::margin_box`. -/
def Dimensions.margin_box (self : Dimensions) : Rect :=
  self.border_box.expended_by self.margin

/-- The keyword value `auto` (a local `let` in the Rust source). -/
def auto : Value := Value.Keyword "auto"

/-- The five-way `match (width == auto, margin_left == auto, margin_right == auto)`
of `calculate_block_width`, factored out with its inputs explicit; returns the
resolved `(width, margin_left, margin_right)`. -/
def resolve_widths (width margin_left margin_right : Value) (underflow : ℚ) :
    Value × Value × Value :=
  match width == auto, margin_left == auto, margin_right == auto with
  | false, false, false =>
    (width, margin_left, Value.Length (margin_right.to_px + underflow) Unit.Px)
  | false, true, false =>
    (width, Value.Length underflow Unit.Px, margin_right)
  | false, false, true =>
    (width, margin_left, Value.Length underflow Unit.Px)
  | true, _, _ =>
    let ml := if margin_left == auto then Value.Length 0 Unit.Px else margin_left
    let mr := if margin_right == auto then Value.Length 0 Unit.Px else margin_right
    if underflow ≥ 0 then
      (Value.Length underflow Unit.Px, ml, mr)
    else
      (Value.Length 0 Unit.Px, ml, Value.Length (mr.to_px + underflow) Unit.Px)
  | false, true, true =>
    (width, Value.Length (underflow / 2) Unit.Px, Value.Length (underflow / 2) Unit.Px)

/-- `calculate_block_width`, as a function from the box's style and current
dimensions to the updated dimensions (the Rust method mutates
`self.dimensions`). -/
def calculate_block_width (style : StyledNode) (containing_block : Dimensions)
    (d : Dimensions) : Dimensions :=
  let width0 := (style.value "width").getD auto
  let zero := Value.Length 0 Unit.Px
  let margin_left0 := style.lookup "margin-left" "margin" zero
  let margin_right0 := style.lookup "margin-right" "margin" zero
  let border_left := style.lookup "border-left-width" "border-width" zero
  let border_right := style.lookup "border-right-width" "border-width" zero
  let padding_left := style.lookup "padding-left" "padding" zero
  let padding_right := style.lookup "padding-right" "padding" zero
  let total := margin_left0.to_px + margin_right0.to_px + border_left.to_px
    + border_right.to_px + padding_left.to_px + padding_right.to_px + width0.to_px
  -- `if width != auto && total > containing_block.content.width { zero the auto margins }`
  let margin_left1 :=
    if width0 ≠ auto ∧ total > containing_block.content.width ∧ margin_left0 = auto
    then Value.Length 0 Unit.Px else margin_left0
  let margin_right1 :=
    if width0 ≠ auto ∧ total > containing_block.content.width ∧ margin_right0 = auto
    then Value.Length 0 Unit.Px else margin_right0
  let underflow := containing_block.content.width - total
  let resolved := resolve_widths width0 margin_left1 margin_right1 underflow
  { d with
    content := { d.content with width := resolved.1.to_px }
    padding := { d.padding with left := padding_left.to_px, right := padding_right.to_px }
    border := { d.border with left := border_left.to_px, right := border_right.to_px }
    margin := { d.margin with left := resolved.2.1.to_px, right := resolved.2.2.to_px } }

/-- `calculate_block_position`: vertical edges and `x`, `y` (the horizontal
margin/border/padding in `d` were already set by `calculate_block_width`). -/
def calculate_block_position (style : StyledNode) (containing_block : Dimensions)
    (d : Dimensions) : Dimensions :=
  let zero := Value.Length 0 Unit.Px
  let margin_top := (style.lookup "margin-top" "margin" zero).to_px
  let margin_bottom := (style.lookup "margin-bottom" "margin" zero).to_px
  let border_top := (style.lookup "border-top-width" "border-width" zero).to_px
  let border_bottom := (style.lookup "border-bottom-width" "border-width" zero).to_px
  let padding_top := (style.lookup "padding-top" "padding" zero).to_px
  let padding_bottom := (style.lookup "padding-bottom" "padding" zero).to_px
  let x := containing_block.content.x + d.margin.left + d.border.left + d.padding.left
  let y := containing_block.content.height + containing_block.content.y
    + margin_top + border_top + padding_top
  { d with
    margin := { d.margin with top := margin_top, bottom := margin_bottom }
    border := { d.border with top := border_top, bottom := border_bottom }
    padding := { d.padding with top := padding_top, bottom := padding_bottom }
    content := { d.content with x := x, y := y } }

/-- `calculate_block_height`: an explicit pixel `height` overwrites the
accumulated children height. -/
def calculate_block_height (style : StyledNode) (d : Dimensions) : Dimensions :=
  match style.value "height" with
  | some (Value.Length h Unit.Px) => { d with content := { d.content with height := h } }
  | _ => d

mutual

/-- `LayoutBox::layout`: block boxes run the block algorithm, inline and
anonymous boxes are a no-op. -/
def layout (b : LayoutBox) (containing_block : Dimensions) : LayoutBox :=
  match b with
  | LayoutBox.mk d box_type cs =>
    match box_type with
    | BoxType.BlockNode style =>
      let d0 := calculate_block_width style containing_block d
      let d1 := calculate_block_position style containing_block d0
      let r := layout_children cs d1
      let d2 := calculate_block_height style r.1
      LayoutBox.mk d2 (BoxType.BlockNode style) r.2
    | t => LayoutBox.mk d t cs

/-- `layout_block_children`: each child is laid out against a copy of the
current dimensions, then `content.height` grows by the child's margin-box
height before the next child. -/
def layout_children : List LayoutBox → Dimensions → Dimensions × List LayoutBox
  | [], d => (d, [])
  | c :: cs, d =>
    let c' := layout c d
    let d' := { d with content :=
      { d.content with height := d.content.height + c'.dimensions.margin_box.height } }
    let r := layout_children cs d'
    (r.1, c' :: r.2)

end

/-! ### Layout tree construction -/

/-- `root.children.push(child)` on a block/inline/anonymous box. -/
def push_child (b : LayoutBox) (child : LayoutBox) : LayoutBox :=
  LayoutBox.mk b.dimensions b.box_type (b.children ++ [child])

/-- `get_inline_container().children.push(child)`: an inline or anonymous box
is its own container; a block box reuses a trailing anonymous child or
creates a fresh one. -/
def push_inline (b : LayoutBox) (child : LayoutBox) : LayoutBox :=
  match b.box_type with
  | BoxType.InlineNode _ | BoxType.AnonymousBlock => push_child b child
  | BoxType.BlockNode _ =>
    match b.children.getLast? with
    | some last =>
      match last.box_type with
      | BoxType.AnonymousBlock =>
        LayoutBox.mk b.dimensions b.box_type
          (b.children.dropLast ++ [push_child last child])
      | _ => push_child b (LayoutBox.mk default_dimensions BoxType.AnonymousBlock [child])
    | none => push_child b (LayoutBox.mk default_dimensions BoxType.AnonymousBlock [child])

mutual

/-- `build_layout_tree`: `none` models the fatal `display: none` root; a
`display: none` child and its subtree are skipped. -/
def build_layout_tree (style_node : StyledNode) : Option LayoutBox :=
  match style_node with
  | StyledNode.mk n v cs =>
    match (StyledNode.mk n v cs).display with
    | Display.None => none
    | Display.Block =>
      some (build_children
        (LayoutBox.mk default_dimensions (BoxType.BlockNode (StyledNode.mk n v cs)) []) cs)
    | Display.Inline =>
      some (build_children
        (LayoutBox.mk default_dimensions (BoxType.InlineNode (StyledNode.mk n v cs)) []) cs)
termination_by sizeOf style_node
decreasing_by all_goals simp_wf

/-- The child loop of `build_layout_tree`. -/
def build_children (root : LayoutBox) : List StyledNode → LayoutBox
  | [] => root
  | child :: rest =>
    match child.display with
    | Display.Block =>
      match build_layout_tree child with
      | some b => build_children (push_child root b) rest
      | none => build_children root rest -- unreachable: `child.display = Block`
    | Display.Inline =>
      match build_layout_tree child with
      | some b => build_children (push_inline root b) rest
      | none => build_children root rest -- unreachable: `child.display = Inline`
    | Display.None => build_children root rest
termination_by l => sizeOf l
decreasing_by all_goals (simp_wf <;> omega)

end

/-! ## CSS parser (`src/css.rs`)

The Rust `Parser { pos, input }` state is modelled as the list of remaining
characters (every access in the source is at or after `pos`).  Panics
(`panic!`, `assert_eq!`, `unwrap`) are modelled as `Except.error`.  Each
source `loop` takes a fuel argument; its wrapper passes
`remaining.length + 1`, which over-approximates the iteration count because
every non-final iteration consumes at least one character. -/

/-- `'\x7b'`, written via its code point to keep brace characters out of literals. -/
def lbrace : Char := Char.ofNat 123

/-- `'\x7d'`. -/
def rbrace : Char := Char.ofNat 125

/-- `valid_identifier_char`. -/
def valid_identifier_char (c : Char) : Bool :=
  (decide ('a' ≤ c) && decide (c ≤ 'z')) || (decide ('A' ≤ c) && decide (c ≤ 'Z'))
    || (decide ('0' ≤ c) && decide (c ≤ '9')) || c = '-' || c = '_'

/-- `consume_char`; the `unwrap` at end of input is an error. -/
def consume_char : List Char → Except String (Char × List Char)
  | [] => Except.error "consume_char at end of input"
  | c :: rest => Except.ok (c, rest)

/-- `next_char`; the `unwrap` at end of input is an error. -/
def next_char : List Char → Except String Char
  | [] => Except.error "next_char at end of input"
  | c :: _ => Except.ok c

/-- `consume_while`: the consumed characters and the rest. -/
def consume_while (test : Char → Bool) (s : List Char) : List Char × List Char :=
  (s.takeWhile test, s.dropWhile test)

/-- `consume_whitespace`. -/
def consume_whitespace (s : List Char) : List Char :=
  s.dropWhile (fun c => c.isWhitespace)

/-- `parse_identifier`. -/
def parse_identifier (s : List Char) : List Char × List Char :=
  consume_while valid_identifier_char s

/-- The `while !self.eof()` loop of `parse_simple_selector`. -/
def parse_simple_selector_loop : Nat → SimpleSelector → List Char → SimpleSelector × List Char
  | 0, sel, s => (sel, s)
  | fuel + 1, sel, s =>
    match s with
    | [] => (sel, [])
    | c :: rest =>
      if c = '#' then
        let p := parse_identifier rest
        parse_simple_selector_loop fuel { sel with id := some (String.mk p.1) } p.2
      else if c = '.' then
        let p := parse_identifier rest
        parse_simple_selector_loop fuel { sel with classes := sel.classes ++ [String.mk p.1] } p.2
      else if c = '*' then
        parse_simple_selector_loop fuel sel rest
      else if valid_identifier_char c then
        let p := parse_identifier (c :: rest)
        parse_simple_selector_loop fuel { sel with tag_name := some (String.mk p.1) } p.2
      else (sel, c :: rest)

/-- `parse_simple_selector`. -/
def parse_simple_selector (s : List Char) : SimpleSelector × List Char :=
  parse_simple_selector_loop (s.length + 1) ⟨none, none, []⟩ s

/-- Digit run to a natural number. -/
def parse_digits_nat (l : List Char) : Nat :=
  l.foldl (fun a c => a * 10 + (c.toNat - '0'.toNat)) 0

/-- `s.parse::<f32>()` on a run of digits and dots (the only shapes
`parse_float` can produce): accepted iff there is at most one dot and at
least one digit; the value is exact in `ℚ`. -/
def rust_parse_float (l : List Char) : Option ℚ :=
  match l.splitOn '.' with
  | [a] => if a.isEmpty then none else some (parse_digits_nat a)
  | [a, b] =>
    if a.isEmpty && b.isEmpty then none
    else some ((parse_digits_nat a : ℚ) + (parse_digits_nat b : ℚ) / ((10 : ℚ) ^ b.length))
  | _ => none

/-- `parse_float`; the `unwrap` on an unparsable literal is an error. -/
def parse_float (s : List Char) : Except String (ℚ × List Char) :=
  let p := consume_while (fun c => (decide ('0' ≤ c) && decide (c ≤ '9')) || c = '.') s
  match rust_parse_float p.1 with
  | some q => Except.ok (q, p.2)
  | none => Except.error "invalid float literal"

/-- `parse_unit`. -/
def parse_unit (s : List Char) : Except String (Unit × List Char) :=
  let p := parse_identifier s
  if p.1.map Char.toLower = ['p', 'x'] then Except.ok (Unit.Px, p.2)
  else Except.error "unrecognized unit"

/-- `parse_length`. -/
def parse_length (s : List Char) : Except String (Value × List Char) :=
  match parse_float s with
  | Except.error e => Except.error e
  | Except.ok (f, s1) =>
    match parse_unit s1 with
    | Except.error e => Except.error e
    | Except.ok (u, s2) => Except.ok (Value.Length f u, s2)

/-- A hex digit's value, as accepted by `u8::from_str_radix(_, 16)`. -/
def hex_digit_val (c : Char) : Option Nat :=
  if decide ('0' ≤ c) && decide (c ≤ '9') then some (c.toNat - '0'.toNat)
  else if decide ('a' ≤ c) && decide (c ≤ 'f') then some (c.toNat - 'a'.toNat + 10)
  else if decide ('A' ≤ c) && decide (c ≤ 'F') then some (c.toNat - 'A'.toNat + 10)
  else none

/-- `parse_hex_pair`: two bytes sliced from the input (an out-of-range slice
or a non-hex digit is an error). -/
def parse_hex_pair (s : List Char) : Except String (Nat × List Char) :=
  match s with
  | a :: b :: rest =>
    match hex_digit_val a, hex_digit_val b with
    | some x, some y => Except.ok (x * 16 + y, rest)
    | _, _ => Except.error "invalid hex digit"
  | _ => Except.error "truncated hex color"

/-- `parse_color`. -/
def parse_color (s : List Char) : Except String (Value × List Char) :=
  match consume_char s with
  | Except.error e => Except.error e
  | Except.ok (c, s1) =>
    if c = '#' then
      match parse_hex_pair s1 with
      | Except.error e => Except.error e
      | Except.ok (r, s2) =>
        match parse_hex_pair s2 with
        | Except.error e => Except.error e
        | Except.ok (g, s3) =>
          match parse_hex_pair s3 with
          | Except.error e => Except.error e
          | Except.ok (b, s4) => Except.ok (Value.ColorValue ⟨r, g, b, 255⟩, s4)
    else Except.error "expected hash"

/-- `parse_value`. -/
def parse_value (s : List Char) : Except String (Value × List Char) :=
  match next_char s with
  | Except.error e => Except.error e
  | Except.ok c =>
    if decide ('0' ≤ c) && decide (c ≤ '9') then parse_length s
    else if c = '#' then parse_color s
    else
      let p := parse_identifier s
      Except.ok (Value.Keyword (String.mk p.1), p.2)

/-- `parse_declaration`: `identifier ':' value ';'`; a missing `:` or `;`
(`assert_eq!`) is an error. -/
def parse_declaration (s : List Char) : Except String (Declaration × List Char) :=
  let p := parse_identifier s
  let s1 := consume_whitespace p.2
  match consume_char s1 with
  | Except.error e => Except.error e
  | Except.ok (c, s2) =>
    if c = ':' then
      let s3 := consume_whitespace s2
      match parse_value s3 with
      | Except.error e => Except.error e
      | Except.ok (value, s4) =>
        let s5 := consume_whitespace s4
        match consume_char s5 with
        | Except.error e => Except.error e
        | Except.ok (c2, s6) =>
          if c2 = ';' then Except.ok (⟨String.mk p.1, value⟩, s6)
          else Except.error "expected semicolon"
    else Except.error "expected colon"

/-- The declaration loop of `parse_declarations`. -/
def parse_declarations_loop :
    Nat → List Declaration → List Char → Except String (List Declaration × List Char)
  | 0, _, _ => Except.error "fuel exhausted"
  | fuel + 1, acc, s =>
    let s1 := consume_whitespace s
    match next_char s1 with
    | Except.error e => Except.error e
    | Except.ok c =>
      if c = rbrace then
        match consume_char s1 with
        | Except.error e => Except.error e
        | Except.ok (_, s2) => Except.ok (acc, s2)
      else
        match parse_declaration s1 with
        | Except.error e => Except.error e
        | Except.ok (d, s2) => parse_declarations_loop fuel (acc ++ [d]) s2

/-- `parse_declarations`: requires the opening brace. -/
def parse_declarations (s : List Char) : Except String (List Declaration × List Char) :=
  match consume_char s with
  | Except.error e => Except.error e
  | Except.ok (c, s1) =>
    if c = lbrace then parse_declarations_loop (s1.length + 1) [] s1
    else Except.error "expected open brace"

/-- The selector loop of `parse_selectors`: an unexpected character where
`,` or the rule's opening brace is expected is a fatal error. -/
def parse_selectors_loop :
    Nat → List Selector → List Char → Except String (List Selector × List Char)
  | 0, _, _ => Except.error "fuel exhausted"
  | fuel + 1, acc, s =>
    let p := parse_simple_selector s
    let acc1 := acc ++ [Selector.Simple p.1]
    let s1 := consume_whitespace p.2
    match next_char s1 with
    | Except.error e => Except.error e
    | Except.ok c =>
      if c = ',' then
        match consume_char s1 with
        | Except.error e => Except.error e
        | Except.ok (_, s2) => parse_selectors_loop fuel acc1 (consume_whitespace s2)
      else if c = lbrace then Except.ok (acc1, s1)
      else Except.error "Unexpected character in selector list"

/-- `parse_selectors`: the parsed list, stably sorted by descending
specificity (`sort_by_key(Reverse(specificity))`). -/
def parse_selectors (s : List Char) : Except String (List Selector × List Char) :=
  match parse_selectors_loop (s.length + 1) [] s with
  | Except.error e => Except.error e
  | Except.ok (sels, s1) =>
    Except.ok (sort_by_le (fun a b => spec_le b.specificity a.specificity) sels, s1)

/-- `parse_rule`. -/
def parse_rule (s : List Char) : Except String (Rule × List Char) :=
  match parse_selectors s with
  | Except.error e => Except.error e
  | Except.ok (sels, s1) =>
    match parse_declarations s1 with
    | Except.error e => Except.error e
    | Except.ok (decls, s2) => Except.ok (⟨sels, decls⟩, s2)

/-- The rule loop of `parse_rules`. -/
def parse_rules_loop : Nat → List Rule → List Char → Except String (List Rule)
  | 0, _, _ => Except.error "fuel exhausted"
  | fuel + 1, acc, s =>
    let s1 := consume_whitespace s
    if s1.isEmpty then Except.ok acc
    else
      match parse_rule s1 with
      | Except.error e => Except.error e
      | Except.ok (r, s2) => parse_rules_loop fuel (acc ++ [r]) s2

/-- `parse`: the whole stylesheet, or a fatal error. -/
def parse (source : String) : Except String Stylesheet :=
  match parse_rules_loop (source.data.length + 1) [] source.data with
  | Except.error e => Except.error e
  | Except.ok rules => Except.ok ⟨rules⟩

/-! ## Derived notions used by the verification -/

/-- The `underflow` computed by `calculate_block_width`: the containing
block's content width minus the total of the seven looked-up horizontal
values (`width` contributing `0` when it is `auto`, via `to_px`). -/
def width_solver_underflow (style : StyledNode) (cb : Dimensions) : ℚ :=
  cb.content.width - ((style.lookup "margin-left" "margin" (Value.Length 0 Unit.Px)).to_px
    + (style.lookup "margin-right" "margin" (Value.Length 0 Unit.Px)).to_px
    + (style.lookup "border-left-width" "border-width" (Value.Length 0 Unit.Px)).to_px
    + (style.lookup "border-right-width" "border-width" (Value.Length 0 Unit.Px)).to_px
    + (style.lookup "padding-left" "padding" (Value.Length 0 Unit.Px)).to_px
    + (style.lookup "padding-right" "padding" (Value.Length 0 Unit.Px)).to_px
    + ((style.value "width").getD auto).to_px)

/-- The value of the last declaration for property `k` in a declaration list
(the one `HashMap::insert` leaves in the map). -/
def last_decl_value (k : String) : List Declaration → Option Value
  | [] => none
  | d :: ds => (last_decl_value k ds).or (if d.name = k then some d.value else none)

/-- The value of the last declaration for property `name` across a list of
matched `(specificity, rule)` pairs processed in order — the last-write-wins
reading of the cascade's insertion fold. -/
def last_rules_value (name : String) : List (Specificity × Rule) → Option Value
  | [] => none
  | sr :: rest => (last_rules_value name rest).or (last_decl_value name sr.2.declarations)

/-- Bare tree shapes, for comparing the document tree and the styled tree. -/
inductive Shp where
  | mk (children : List Shp)

mutual

def shape_of_node : Node → Shp
  | Node.mk cs _ => Shp.mk (shape_of_node_list cs)

def shape_of_node_list : List Node → List Shp
  | [] => []
  | c :: cs => shape_of_node c :: shape_of_node_list cs

end

mutual

def shape_of_styled : StyledNode → Shp
  | StyledNode.mk _ _ cs => Shp.mk (shape_of_styled_list cs)

def shape_of_styled_list : List StyledNode → List Shp
  | [] => []
  | c :: cs => shape_of_styled c :: shape_of_styled_list cs

end

mutual

/-- Every styled node a `LayoutBox` tree holds a reference to. -/
def referenced_nodes : LayoutBox → List StyledNode
  | LayoutBox.mk _ bt cs =>
    (match bt with
     | BoxType.BlockNode n => [n]
     | BoxType.InlineNode n => [n]
     | BoxType.AnonymousBlock => []) ++ referenced_nodes_list cs

def referenced_nodes_list : List LayoutBox → List StyledNode
  | [] => []
  | c :: cs => referenced_nodes c ++ referenced_nodes_list cs

end

mutual

/-- The styled nodes reachable from a root without entering any
`display: none` subtree (the nodes a layout box may legitimately reference). -/
def admissible : StyledNode → List StyledNode
  | StyledNode.mk n v cs => StyledNode.mk n v cs :: admissible_list cs

def admissible_list : List StyledNode → List StyledNode
  | [] => []
  | c :: cs => (if c.display = Display.None then [] else admissible c) ++ admissible_list cs

end

/-! ## Concrete instances for the testable properties -/

/-- `width:500px; margin-left:50px; margin-right:50px`. -/
def style_c1 : StyledNode := StyledNode.mk (Node.mk [] (NodeType.Text "c1"))
  [("width", Value.Length 500 Unit.Px), ("margin-left", Value.Length 50 Unit.Px),
    ("margin-right", Value.Length 50 Unit.Px)] []

/-- A containing block of content width 500. -/
def cb_500 : Dimensions := { default_dimensions with content := { default_rect with width := 500 } }

/-- An element with no declared properties (`width` defaults to `auto`). -/
def style_c3 : StyledNode := StyledNode.mk (Node.mk [] (NodeType.Text "c3")) [] []

/-- A containing block of content width 600. -/
def cb_600 : Dimensions := { default_dimensions with content := { default_rect with width := 600 } }

/-- `width:400px; margin-left:auto; margin-right:auto`. -/
def style_c4 : StyledNode := StyledNode.mk (Node.mk [] (NodeType.Text "c4"))
  [("width", Value.Length 400 Unit.Px), ("margin-left", Value.Keyword "auto"),
    ("margin-right", Value.Keyword "auto")] []

/-- `<div><p/></div>`. -/
def doc_c2 : Node :=
  Node.mk [Node.mk [] (NodeType.Element ⟨"p", []⟩)] (NodeType.Element ⟨"div", []⟩)

/-- `p { display: none; }`. -/
def sheet_c2 : Stylesheet :=
  ⟨[⟨[Selector.Simple ⟨some "p", none, []⟩], [⟨"display", Value.Keyword "none"⟩]⟩]⟩

/-- A styled node carrying only `height: 50px`. -/
def style_h50 : StyledNode :=
  StyledNode.mk (Node.mk [] (NodeType.Text "child")) [("height", Value.Length 50 Unit.Px)] []

/-- A styled node with no declared properties. -/
def parent_style : StyledNode := StyledNode.mk (Node.mk [] (NodeType.Text "parent")) [] []

/-- A block box of margin-box height 50 once laid out. -/
def child_block : LayoutBox := LayoutBox.mk default_dimensions (BoxType.BlockNode style_h50) []

/-- A block box with two such children. -/
def parent_block : LayoutBox :=
  LayoutBox.mk default_dimensions (BoxType.BlockNode parent_style) [child_block, child_block]

/-- A containing block of content width 200 at `y = 0`. -/
def cb_200 : Dimensions := { default_dimensions with content := { default_rect with width := 200 } }

def dims_w200 : Dimensions := ⟨⟨0, 0, 200, 0⟩, default_edges, default_edges, default_edges⟩

def dims_w200_h50 : Dimensions := ⟨⟨0, 0, 200, 50⟩, default_edges, default_edges, default_edges⟩

def dims_y50 : Dimensions := ⟨⟨0, 50, 200, 0⟩, default_edges, default_edges, default_edges⟩

def dims_y50_h50 : Dimensions := ⟨⟨0, 50, 200, 50⟩, default_edges, default_edges, default_edges⟩

/-- A `display:block` grandchild hidden under a `display:none` parent. -/
def grandchild_c8 : StyledNode :=
  StyledNode.mk (Node.mk [] (NodeType.Text "g")) [("display", Value.Keyword "block")] []

/-- A `display:none` child with a block grandchild. -/
def none_child_c8 : StyledNode :=
  StyledNode.mk (Node.mk [] (NodeType.Text "n")) [("display", Value.Keyword "none")]
    [grandchild_c8]

/-- A `display:block` sibling. -/
def block_child_c8 : StyledNode :=
  StyledNode.mk (Node.mk [] (NodeType.Text "b")) [("display", Value.Keyword "block")] []

/-- A block root with the none child and the block child. -/
def sn_c8 : StyledNode :=
  StyledNode.mk (Node.mk [] (NodeType.Text "r")) [("display", Value.Keyword "block")]
    [none_child_c8, block_child_c8]

/-- The layout tree `build_layout_tree` produces for `sn_c8`: only the block
child appears. -/
def box_c8 : LayoutBox :=
  LayoutBox.mk default_dimensions (BoxType.BlockNode sn_c8)
    [LayoutBox.mk default_dimensions (BoxType.BlockNode block_child_c8) []]

/-! ## Helper lemmas -/

theorem value_beq_def (a b : Value) : (a == b) = decide (a = b) := rfl

theorem length_eq_keyword (q : ℚ) (u : Unit) (s : String) :
    (Value.Length q u = Value.Keyword s) = False :=
  eq_false (fun h => Value.noConfusion h)

theorem keyword_eq_length (q : ℚ) (u : Unit) (s : String) :
    (Value.Keyword s = Value.Length q u) = False :=
  eq_false (fun h => Value.noConfusion h)

/-- Each arm of the width-resolution `match` raises the total of the three
resolved values by exactly `underflow` over their looked-up `to_px` values. -/
theorem resolve_widths_sum (w ml mr : Value) (u : ℚ) :
    (resolve_widths w ml mr u).2.1.to_px + (resolve_widths w ml mr u).2.2.to_px
      + (resolve_widths w ml mr u).1.to_px
      = ml.to_px + mr.to_px + w.to_px + u := by
  unfold resolve_widths
  split <;> (repeat' split) <;> simp_all [auto, Value.to_px] <;> ring

/-- The margin-zeroing step followed by `resolve_widths` always restores the
containing width, whatever the looked-up values were. -/
theorem width_sum_core (w ml0 mr0 : Value) (blq brq plq prq cw total : ℚ)
    (htotal : total = ml0.to_px + mr0.to_px + blq + brq + plq + prq + w.to_px) :
    (resolve_widths w
        (if w ≠ auto ∧ total > cw ∧ ml0 = auto then Value.Length 0 Unit.Px else ml0)
        (if w ≠ auto ∧ total > cw ∧ mr0 = auto then Value.Length 0 Unit.Px else mr0)
        (cw - total)).2.1.to_px + blq + plq
      + (resolve_widths w
        (if w ≠ auto ∧ total > cw ∧ ml0 = auto then Value.Length 0 Unit.Px else ml0)
        (if w ≠ auto ∧ total > cw ∧ mr0 = auto then Value.Length 0 Unit.Px else mr0)
        (cw - total)).1.to_px + prq + brq
      + (resolve_widths w
        (if w ≠ auto ∧ total > cw ∧ ml0 = auto then Value.Length 0 Unit.Px else ml0)
        (if w ≠ auto ∧ total > cw ∧ mr0 = auto then Value.Length 0 Unit.Px else mr0)
        (cw - total)).2.2.to_px = cw := by
  split <;> split
  · rename_i h1 h2
    have key := resolve_widths_sum w (Value.Length 0 Unit.Px) (Value.Length 0 Unit.Px) (cw - total)
    have hml : ml0.to_px = 0 := by simp [h1.2.2, auto, Value.to_px]
    have hmr : mr0.to_px = 0 := by simp [h2.2.2, auto, Value.to_px]
    simp only [Value.to_px] at key hml hmr htotal ⊢
    linarith
  · rename_i h1 h2
    have key := resolve_widths_sum w (Value.Length 0 Unit.Px) mr0 (cw - total)
    have hml : ml0.to_px = 0 := by simp [h1.2.2, auto, Value.to_px]
    simp only [Value.to_px] at key hml htotal ⊢
    linarith
  · rename_i h1 h2
    have key := resolve_widths_sum w ml0 (Value.Length 0 Unit.Px) (cw - total)
    have hmr : mr0.to_px = 0 := by simp [h2.2.2, auto, Value.to_px]
    simp only [Value.to_px] at key hmr htotal ⊢
    linarith
  · rename_i h1 h2
    have key := resolve_widths_sum w ml0 mr0 (cw - total)
    simp only [Value.to_px] at key htotal ⊢
    linarith

theorem pm_get_insert (m : PropertyMap) (n k : String) (v : Value) :
    pm_get (pm_insert m n v) k = if n = k then some v else pm_get m k := by
  by_cases h : n = k
  · have hnk : (n == k) = true := beq_iff_eq.mpr h
    simp [pm_get, pm_insert, List.find?, hnk, h]
  · have hnk : (n == k) = false := beq_eq_false_iff_ne.mpr h
    simp [pm_get, pm_insert, List.find?, hnk, h]

/-- Folding a declaration list into the property map realises last-write-wins
for that list, falling back to the previous map. -/
theorem pm_get_foldl (k : String) (decls : List Declaration) :
    ∀ m : PropertyMap,
      pm_get (decls.foldl (fun vs d => pm_insert vs d.name d.value) m) k
        = (last_decl_value k decls).or (pm_get m k) := by
  induction decls with
  | nil => intro m; simp [last_decl_value]
  | cons d ds ih =>
    intro m
    rw [List.foldl_cons, ih, last_decl_value]
    rw [pm_get_insert]
    cases hl : last_decl_value k ds <;> by_cases h : d.name = k <;> simp [h, Option.or]

/-- `spec_le` is the lexicographic order on the three specificity components
(Rust's derived `Ord` on a triple). -/
theorem spec_le_iff (s t : Specificity) :
    spec_le s t = true ↔
      s.1 < t.1 ∨ (s.1 = t.1 ∧ (s.2.1 < t.2.1 ∨ (s.2.1 = t.2.1 ∧ s.2.2 ≤ t.2.2))) := by
  unfold spec_le
  split_ifs <;> simp_all <;> omega

theorem spec_le_total (s t : Specificity) : spec_le s t = true ∨ spec_le t s = true := by
  rw [spec_le_iff, spec_le_iff]; omega

theorem spec_le_trans (a b c : Specificity)
    (h1 : spec_le a b = true) (h2 : spec_le b c = true) : spec_le a c = true := by
  rw [spec_le_iff] at h1 h2 ⊢; omega

theorem spec_le_refl (s : Specificity) : spec_le s s = true := by
  rw [spec_le_iff]; omega

theorem insert_by_le_perm (le : α → α → Bool) (x : α) :
    ∀ l : List α, (insert_by_le le x l).Perm (x :: l)
  | [] => List.Perm.refl _
  | y :: ys => by
    unfold insert_by_le
    split
    · exact ((insert_by_le_perm le x ys).cons y).trans (List.Perm.swap x y ys)
    · exact List.Perm.refl _

theorem foldl_insert_perm (le : α → α → Bool) :
    ∀ (l acc : List α),
      (List.foldl (fun acc x => insert_by_le le x acc) acc l).Perm (acc ++ l)
  | [], acc => by simp
  | x :: xs, acc => by
    rw [List.foldl_cons]
    refine (foldl_insert_perm le xs (insert_by_le le x acc)).trans ?_
    refine (List.Perm.append_right xs (insert_by_le_perm le x acc)).trans ?_
    exact List.perm_middle.symm

/-- `sort_by_le` keeps exactly the elements of its input. -/
theorem sort_by_le_perm (le : α → α → Bool) (l : List α) : (sort_by_le le l).Perm l := by
  simpa [sort_by_le] using foldl_insert_perm le l []

theorem insert_by_le_sorted (x : Specificity × Rule) :
    ∀ l : List (Specificity × Rule),
      List.Sorted (fun a b : Specificity × Rule => spec_le a.1 b.1 = true) l →
      List.Sorted (fun a b : Specificity × Rule => spec_le a.1 b.1 = true)
        (insert_by_le (fun a b => spec_le a.1 b.1) x l)
  | [], _ => by simp [insert_by_le]
  | y :: ys, hl => by
    rw [List.sorted_cons] at hl
    unfold insert_by_le
    split
    · rename_i hle
      rw [List.sorted_cons]
      refine ⟨?_, insert_by_le_sorted x ys hl.2⟩
      intro z hz
      rcases List.mem_cons.mp
        (((insert_by_le_perm (fun a b => spec_le a.1 b.1) x ys).mem_iff).mp hz) with h | h
      · exact h ▸ hle
      · exact hl.1 z h
    · rename_i hle
      have hxy : spec_le x.1 y.1 = true := by
        rcases spec_le_total x.1 y.1 with h | h
        · exact h
        · exact absurd h (by simpa using hle)
      rw [List.sorted_cons]
      refine ⟨?_, List.sorted_cons.mpr hl⟩
      intro z hz
      rcases List.mem_cons.mp hz with h | h
      · exact h ▸ hxy
      · exact spec_le_trans _ _ _ hxy (hl.1 z h)

theorem foldl_insert_sorted :
    ∀ (l acc : List (Specificity × Rule)),
      List.Sorted (fun a b : Specificity × Rule => spec_le a.1 b.1 = true) acc →
      List.Sorted (fun a b : Specificity × Rule => spec_le a.1 b.1 = true)
        (List.foldl (fun acc x => insert_by_le (fun a b => spec_le a.1 b.1) x acc) acc l)
  | [], _, hacc => hacc
  | x :: xs, acc, hacc => by
    rw [List.foldl_cons]
    exact foldl_insert_sorted xs _ (insert_by_le_sorted x acc hacc)

/-- The cascade's rule list is sorted by ascending specificity. -/
theorem sort_by_le_sorted (l : List (Specificity × Rule)) :
    List.Sorted (fun a b : Specificity × Rule => spec_le a.1 b.1 = true)
      (sort_by_le (fun a b => spec_le a.1 b.1) l) :=
  foldl_insert_sorted l [] (by simp)

theorem spec_key_ne_of_not_le (y x : Specificity × Rule)
    (h : spec_le y.1 x.1 = false) : y.1 ≠ x.1 := by
  intro he
  rw [he] at h
  exact absurd (spec_le_refl x.1) (by simp [h])

theorem spec_key_ne_of_le_of_not_le (y z x : Specificity × Rule)
    (h : spec_le y.1 x.1 = false) (hyz : spec_le y.1 z.1 = true) : z.1 ≠ x.1 := by
  intro he
  rw [he] at hyz
  simp [hyz] at h

theorem insert_by_le_filter (x : Specificity × Rule) (s : Specificity) :
    ∀ l : List (Specificity × Rule),
      List.Sorted (fun a b : Specificity × Rule => spec_le a.1 b.1 = true) l →
      (insert_by_le (fun a b => spec_le a.1 b.1) x l).filter (fun a => decide (a.1 = s))
        = if x.1 = s then l.filter (fun a => decide (a.1 = s)) ++ [x]
          else l.filter (fun a => decide (a.1 = s))
  | [], _ => by
    by_cases hx : x.1 = s <;> simp [insert_by_le, List.filter, hx]
  | y :: ys, hl => by
    rw [List.sorted_cons] at hl
    unfold insert_by_le
    split
    · rw [List.filter_cons, List.filter_cons,
        insert_by_le_filter x s ys hl.2]
      by_cases hy : y.1 = s <;> by_cases hx : x.1 = s <;> simp [hy, hx]
    · rename_i hle
      have hle' : spec_le y.1 x.1 = false := by simpa using hle
      by_cases hx : x.1 = s
      · have hnil : (y :: ys).filter (fun a => decide (a.1 = s)) = [] := by
          rw [List.filter_eq_nil_iff]
          intro a ha
          rcases List.mem_cons.mp ha with h | h
          · subst h
            simpa [hx] using spec_key_ne_of_not_le a x hle'
          · simpa [hx] using spec_key_ne_of_le_of_not_le y a x hle' (hl.1 a h)
        simp [List.filter_cons, hnil, hx]
      · rw [List.filter_cons]
        simp [hx]

theorem foldl_insert_filter (s : Specificity) :
    ∀ (l acc : List (Specificity × Rule)),
      List.Sorted (fun a b : Specificity × Rule => spec_le a.1 b.1 = true) acc →
      (List.foldl (fun acc x => insert_by_le (fun a b => spec_le a.1 b.1) x acc) acc l).filter
          (fun a => decide (a.1 = s))
        = acc.filter (fun a => decide (a.1 = s)) ++ l.filter (fun a => decide (a.1 = s))
  | [], _, _ => by simp
  | x :: xs, acc, hacc => by
    rw [List.foldl_cons,
      foldl_insert_filter s xs _ (insert_by_le_sorted x acc hacc),
      insert_by_le_filter x s acc hacc, List.filter_cons]
    by_cases hx : x.1 = s <;> simp [hx]

/-- Stability of the cascade sort: within any one specificity, the rules keep
their original (stylesheet) order. -/
theorem sort_by_le_filter (l : List (Specificity × Rule)) (s : Specificity) :
    (sort_by_le (fun a b => spec_le a.1 b.1) l).filter (fun a => decide (a.1 = s))
      = l.filter (fun a => decide (a.1 = s)) := by
  have h := foldl_insert_filter s l [] (by simp)
  simpa [sort_by_le] using h

/-- The cascade's double fold is last-write-wins over the processed rule
list: the resolved value for `name` is the last declaration of `name` across
the rules in processing order, falling back to the previous map. -/
theorem pm_get_rules_foldl (name : String) :
    ∀ (rules : List (Specificity × Rule)) (m : PropertyMap),
      pm_get (rules.foldl
          (fun values sr =>
            sr.2.declarations.foldl
              (fun vs declaration => pm_insert vs declaration.name declaration.value) values)
          m) name
        = (last_rules_value name rules).or (pm_get m name)
  | [], m => by simp [last_rules_value]
  | sr :: rest, m => by
    rw [List.foldl_cons, pm_get_rules_foldl name rest, pm_get_foldl, last_rules_value]
    cases last_rules_value name rest <;> cases last_decl_value name sr.2.declarations <;>
      simp [Option.or]

mutual

theorem style_tree_shape (stylesheet : Stylesheet) :
    ∀ root : Node, shape_of_styled (style_tree root stylesheet) = shape_of_node root
  | Node.mk cs nt => by
    rw [style_tree.eq_def, shape_of_styled, shape_of_node]
    exact congrArg Shp.mk (style_tree_shape_list stylesheet cs)

theorem style_tree_shape_list (stylesheet : Stylesheet) :
    ∀ l : List Node,
      shape_of_styled_list (style_tree_children l stylesheet) = shape_of_node_list l
  | [] => rfl
  | c :: cs => by
    rw [style_tree_children, shape_of_styled_list, shape_of_node_list]
    rw [style_tree_shape stylesheet c, style_tree_shape_list stylesheet cs]

end

theorem referenced_nodes_mk (d : Dimensions) (bt : BoxType) (cs : List LayoutBox) :
    referenced_nodes (LayoutBox.mk d bt cs)
      = (match bt with
         | BoxType.BlockNode n => [n]
         | BoxType.InlineNode n => [n]
         | BoxType.AnonymousBlock => []) ++ referenced_nodes_list cs := by
  rw [referenced_nodes.eq_def]

theorem referenced_nodes_list_append (xs ys : List LayoutBox) :
    referenced_nodes_list (xs ++ ys) = referenced_nodes_list xs ++ referenced_nodes_list ys := by
  induction xs with
  | nil => simp [referenced_nodes_list]
  | cons x xs ih => simp [referenced_nodes_list, ih]

theorem mem_referenced_push_child (r c : LayoutBox) (t : StyledNode)
    (ht : t ∈ referenced_nodes (push_child r c)) :
    t ∈ referenced_nodes r ∨ t ∈ referenced_nodes c := by
  obtain ⟨d, bt, cs⟩ := r
  simp only [push_child, LayoutBox.dimensions, LayoutBox.box_type, LayoutBox.children,
    referenced_nodes_mk, referenced_nodes_list_append, referenced_nodes_list,
    List.append_nil, List.mem_append] at ht ⊢
  tauto

theorem getLast?_decomp : ∀ (l : List LayoutBox) (a : LayoutBox),
    l.getLast? = some a → l = l.dropLast ++ [a]
  | [], a, h => by simp at h
  | [x], a, h => by
    simp [List.getLast?] at h
    simp [h]
  | x :: y :: ys, a, h => by
    rw [List.getLast?_cons_cons] at h
    have ih := getLast?_decomp (y :: ys) a h
    calc x :: y :: ys = x :: ((y :: ys).dropLast ++ [a]) := by rw [← ih]
    _ = (x :: y :: ys).dropLast ++ [a] := by simp [List.dropLast]

theorem mem_referenced_push_inline (r c : LayoutBox) (t : StyledNode)
    (ht : t ∈ referenced_nodes (push_inline r c)) :
    t ∈ referenced_nodes r ∨ t ∈ referenced_nodes c := by
  obtain ⟨d, bt, cs⟩ := r
  cases bt with
  | InlineNode n => exact mem_referenced_push_child _ c t ht
  | AnonymousBlock => exact mem_referenced_push_child _ c t ht
  | BlockNode n =>
    simp only [push_inline, LayoutBox.box_type, LayoutBox.children] at ht
    cases hlast : (cs : List LayoutBox).getLast? with
    | none =>
      rw [hlast] at ht
      dsimp only at ht
      rcases mem_referenced_push_child _ _ t ht with h | h
      · exact Or.inl h
      · simp only [referenced_nodes_mk, referenced_nodes_list, List.append_nil,
          List.nil_append] at h
        exact Or.inr h
    | some last =>
      obtain ⟨ld, lbt, lcs⟩ := last
      rw [hlast] at ht
      cases lbt with
      | BlockNode m =>
        dsimp only at ht
        rcases mem_referenced_push_child _ _ t ht with h | h
        · exact Or.inl h
        · simp only [referenced_nodes_mk, referenced_nodes_list, List.append_nil,
            List.nil_append] at h
          exact Or.inr h
      | InlineNode m =>
        dsimp only at ht
        rcases mem_referenced_push_child _ _ t ht with h | h
        · exact Or.inl h
        · simp only [referenced_nodes_mk, referenced_nodes_list, List.append_nil,
            List.nil_append] at h
          exact Or.inr h
      | AnonymousBlock =>
        dsimp only at ht
        have hdecomp := getLast?_decomp cs (LayoutBox.mk ld BoxType.AnonymousBlock lcs) hlast
        rw [LayoutBox.dimensions, referenced_nodes_mk, referenced_nodes_list_append] at ht
        simp only [referenced_nodes_list, List.append_nil, List.mem_append] at ht
        rcases ht with h | h | h
        · exact Or.inl (by simp only [referenced_nodes_mk, List.mem_append]; exact Or.inl h)
        · refine Or.inl ?_
          have hmem : t ∈ referenced_nodes_list cs := by
            rw [hdecomp, referenced_nodes_list_append]
            simp only [referenced_nodes_list, List.append_nil, List.mem_append]
            exact Or.inl h
          simp only [referenced_nodes_mk, List.mem_append]
          exact Or.inr hmem
        · rcases mem_referenced_push_child (LayoutBox.mk ld BoxType.AnonymousBlock lcs) c t h
            with h2 | h2
          · refine Or.inl ?_
            have hmem : t ∈ referenced_nodes_list cs := by
              rw [hdecomp, referenced_nodes_list_append]
              simp only [referenced_nodes_list, List.append_nil, List.mem_append]
              exact Or.inr h2
            simp only [referenced_nodes_mk, List.mem_append]
            exact Or.inr hmem
          · exact Or.inr h2

theorem admissible_mk (n : Node) (v : PropertyMap) (cs : List StyledNode) :
    admissible (StyledNode.mk n v cs) = StyledNode.mk n v cs :: admissible_list cs := by
  rw [admissible.eq_def]

theorem admissible_list_cons (c : StyledNode) (cs : List StyledNode) :
    admissible_list (c :: cs)
      = (if c.display = Display.None then [] else admissible c) ++ admissible_list cs := by
  rw [admissible_list.eq_def]

theorem admissible_list_nil : admissible_list [] = [] := by
  rw [admissible_list.eq_def]

mutual

/-- Every node referenced by a built layout tree is reachable from the root
without entering a `display: none` subtree. -/
theorem build_refs : ∀ (sn : StyledNode) (b : LayoutBox), build_layout_tree sn = some b →
    ∀ t ∈ referenced_nodes b, t ∈ admissible sn
  | StyledNode.mk n v cs, b, hb, t, ht => by
    rw [build_layout_tree] at hb
    split at hb
    · exact absurd hb (by simp)
    · rw [Option.some_inj] at hb
      subst hb
      rcases build_children_refs cs _ t ht with h | h
      · simp only [referenced_nodes_mk, referenced_nodes_list, List.append_nil,
          List.mem_singleton] at h
        subst h
        rw [admissible_mk]
        exact List.mem_cons_self _ _
      · rw [admissible_mk]
        exact List.mem_cons_of_mem _ h
    · rw [Option.some_inj] at hb
      subst hb
      rcases build_children_refs cs _ t ht with h | h
      · simp only [referenced_nodes_mk, referenced_nodes_list, List.append_nil,
          List.mem_singleton] at h
        subst h
        rw [admissible_mk]
        exact List.mem_cons_self _ _
      · rw [admissible_mk]
        exact List.mem_cons_of_mem _ h
  termination_by sn => sizeOf sn

theorem build_children_refs : ∀ (l : List StyledNode) (root : LayoutBox) (t : StyledNode),
    t ∈ referenced_nodes (build_children root l) →
      t ∈ referenced_nodes root ∨ t ∈ admissible_list l
  | [], root, t, ht => by
    rw [build_children] at ht
    exact Or.inl ht
  | c :: rest, root, t, ht => by
    rw [build_children] at ht
    split at ht
    · rename_i hd
      split at ht
      · rename_i bb hbb
        rcases build_children_refs rest _ t ht with h | h
        · rcases mem_referenced_push_child root bb t h with h2 | h2
          · exact Or.inl h2
          · refine Or.inr ?_
            rw [admissible_list_cons, List.mem_append]
            refine Or.inl ?_
            rw [if_neg (by rw [hd]; simp)]
            exact build_refs c bb hbb t h2
        · refine Or.inr ?_
          rw [admissible_list_cons, List.mem_append]
          exact Or.inr h
      · rcases build_children_refs rest _ t ht with h | h
        · exact Or.inl h
        · refine Or.inr ?_
          rw [admissible_list_cons, List.mem_append]
          exact Or.inr h
    · rename_i hd
      split at ht
      · rename_i bb hbb
        rcases build_children_refs rest _ t ht with h | h
        · rcases mem_referenced_push_inline root bb t h with h2 | h2
          · exact Or.inl h2
          · refine Or.inr ?_
            rw [admissible_list_cons, List.mem_append]
            refine Or.inl ?_
            rw [if_neg (by rw [hd]; simp)]
            exact build_refs c bb hbb t h2
        · refine Or.inr ?_
          rw [admissible_list_cons, List.mem_append]
          exact Or.inr h
      · rcases build_children_refs rest _ t ht with h | h
        · exact Or.inl h
        · refine Or.inr ?_
          rw [admissible_list_cons, List.mem_append]
          exact Or.inr h
    · rcases build_children_refs rest _ t ht with h | h
      · exact Or.inl h
      · refine Or.inr ?_
        rw [admissible_list_cons, List.mem_append]
        exact Or.inr h
  termination_by l => sizeOf l

end

mutual

/-- Every admissible node of a non-`display:none` root has itself a
non-`None` display. -/
theorem admissible_display : ∀ (sn : StyledNode), sn.display ≠ Display.None →
    ∀ t ∈ admissible sn, t.display ≠ Display.None
  | StyledNode.mk n v cs, hsn, t, ht => by
    rw [admissible_mk, List.mem_cons] at ht
    rcases ht with h | h
    · subst h; exact hsn
    · exact admissible_list_display cs t h
  termination_by sn => sizeOf sn

theorem admissible_list_display : ∀ (l : List StyledNode) (t : StyledNode),
    t ∈ admissible_list l → t.display ≠ Display.None
  | [], t, ht => by rw [admissible_list_nil] at ht; exact absurd ht (by simp)
  | c :: rest, t, ht => by
    rw [admissible_list_cons, List.mem_append] at ht
    rcases ht with h | h
    · split at h
      · exact absurd h (by simp)
      · exact admissible_display c (by assumption) t h
    · exact admissible_list_display rest t h
  termination_by l => sizeOf l

end

theorem style_h50_value_ne (n : String) (hn : n ≠ "height") : style_h50.value n = none := by
  have hb : ("height" == n) = false := beq_eq_false_iff_ne.mpr (Ne.symm hn)
  simp [StyledNode.value, StyledNode.specified_values, style_h50, pm_get, List.find?, hb]

theorem style_h50_lookup_ne (n f : String) (hn : n ≠ "height") (hf : f ≠ "height") :
    style_h50.lookup n f (Value.Length 0 Unit.Px) = Value.Length 0 Unit.Px := by
  simp [StyledNode.lookup, style_h50_value_ne n hn, style_h50_value_ne f hf]

theorem c8_build_leaf : build_layout_tree block_child_c8
    = some (LayoutBox.mk default_dimensions (BoxType.BlockNode block_child_c8) []) := by
  rw [build_layout_tree.eq_def]
  dsimp only [block_child_c8]
  rw [show (StyledNode.mk (Node.mk [] (NodeType.Text "b"))
      [("display", Value.Keyword "block")] []).display = Display.Block from by decide]
  rw [build_children]

theorem c8_build_eval : build_layout_tree sn_c8 = some box_c8 := by
  rw [build_layout_tree.eq_def]
  dsimp only [sn_c8]
  rw [show (StyledNode.mk (Node.mk [] (NodeType.Text "r"))
      [("display", Value.Keyword "block")]
      [none_child_c8, block_child_c8]).display = Display.Block from by decide]
  rw [build_children]
  rw [show none_child_c8.display = Display.None from by decide]
  dsimp only
  rw [build_children]
  rw [show block_child_c8.display = Display.Block from by decide]
  dsimp only
  rw [c8_build_leaf]
  dsimp only
  rw [build_children]
  dsimp only [push_child, LayoutBox.dimensions, LayoutBox.box_type, LayoutBox.children]
  rfl

/-! ## Claims -/

/-- C1 (counterexample): in the over-constrained case with containing width
500, `width:500px; margin-left:50px; margin-right:50px`, the resolved
margin-right is not 150 as the spec's example states. -/
theorem c1_overconstrained_counterexample :
    (calculate_block_width style_c1 cb_500 default_dimensions).margin.right ≠ 150 := by
  have hw : style_c1.value "width" = some (Value.Length 500 Unit.Px) := by
    simp [StyledNode.value, StyledNode.specified_values, style_c1, pm_get, List.find?]
  have hml : style_c1.lookup "margin-left" "margin" (Value.Length 0 Unit.Px)
      = Value.Length 50 Unit.Px := by
    simp [StyledNode.lookup, StyledNode.value, StyledNode.specified_values, style_c1, pm_get,
      List.find?]
  have hmr : style_c1.lookup "margin-right" "margin" (Value.Length 0 Unit.Px)
      = Value.Length 50 Unit.Px := by
    simp [StyledNode.lookup, StyledNode.value, StyledNode.specified_values, style_c1, pm_get,
      List.find?]
  have hbl : style_c1.lookup "border-left-width" "border-width" (Value.Length 0 Unit.Px)
      = Value.Length 0 Unit.Px := by
    simp [StyledNode.lookup, StyledNode.value, StyledNode.specified_values, style_c1, pm_get,
      List.find?]
  have hbr : style_c1.lookup "border-right-width" "border-width" (Value.Length 0 Unit.Px)
      = Value.Length 0 Unit.Px := by
    simp [StyledNode.lookup, StyledNode.value, StyledNode.specified_values, style_c1, pm_get,
      List.find?]
  have hpl : style_c1.lookup "padding-left" "padding" (Value.Length 0 Unit.Px)
      = Value.Length 0 Unit.Px := by
    simp [StyledNode.lookup, StyledNode.value, StyledNode.specified_values, style_c1, pm_get,
      List.find?]
  have hpr : style_c1.lookup "padding-right" "padding" (Value.Length 0 Unit.Px)
      = Value.Length 0 Unit.Px := by
    simp [StyledNode.lookup, StyledNode.value, StyledNode.specified_values, style_c1, pm_get,
      List.find?]
  unfold calculate_block_width
  simp only [hw, hml, hmr, hbl, hbr, hpl, hpr, Option.getD_some]
  norm_num [resolve_widths, value_beq_def, auto, Value.to_px, length_eq_keyword,
    keyword_eq_length, cb_500, default_dimensions, default_rect, default_edges]

/-- C1 (amended): in the over-constrained case the entire (here negative)
underflow is added to margin-right: with containing width 500 and
`width:500px; margin-left:50px; margin-right:50px` the resolved
margin-right is `50 + (500 - 600) = -50`, while margin-left stays 50 and
width stays 500. -/
theorem c1_overconstrained_margin_right :
    (calculate_block_width style_c1 cb_500 default_dimensions).margin.right = -50
    ∧ (calculate_block_width style_c1 cb_500 default_dimensions).margin.left = 50
    ∧ (calculate_block_width style_c1 cb_500 default_dimensions).content.width = 500 := by
  have hw : style_c1.value "width" = some (Value.Length 500 Unit.Px) := by
    simp [StyledNode.value, StyledNode.specified_values, style_c1, pm_get, List.find?]
  have hml : style_c1.lookup "margin-left" "margin" (Value.Length 0 Unit.Px)
      = Value.Length 50 Unit.Px := by
    simp [StyledNode.lookup, StyledNode.value, StyledNode.specified_values, style_c1, pm_get,
      List.find?]
  have hmr : style_c1.lookup "margin-right" "margin" (Value.Length 0 Unit.Px)
      = Value.Length 50 Unit.Px := by
    simp [StyledNode.lookup, StyledNode.value, StyledNode.specified_values, style_c1, pm_get,
      List.find?]
  have hbl : style_c1.lookup "border-left-width" "border-width" (Value.Length 0 Unit.Px)
      = Value.Length 0 Unit.Px := by
    simp [StyledNode.lookup, StyledNode.value, StyledNode.specified_values, style_c1, pm_get,
      List.find?]
  have hbr : style_c1.lookup "border-right-width" "border-width" (Value.Length 0 Unit.Px)
      = Value.Length 0 Unit.Px := by
    simp [StyledNode.lookup, StyledNode.value, StyledNode.specified_values, style_c1, pm_get,
      List.find?]
  have hpl : style_c1.lookup "padding-left" "padding" (Value.Length 0 Unit.Px)
      = Value.Length 0 Unit.Px := by
    simp [StyledNode.lookup, StyledNode.value, StyledNode.specified_values, style_c1, pm_get,
      List.find?]
  have hpr : style_c1.lookup "padding-right" "padding" (Value.Length 0 Unit.Px)
      = Value.Length 0 Unit.Px := by
    simp [StyledNode.lookup, StyledNode.value, StyledNode.specified_values, style_c1, pm_get,
      List.find?]
  unfold calculate_block_width
  simp only [hw, hml, hmr, hbl, hbr, hpl, hpr, Option.getD_some]
  norm_num [resolve_widths, value_beq_def, auto, Value.to_px, length_eq_keyword,
    keyword_eq_length, cb_500, default_dimensions, default_rect, default_edges]

/-- C2 (counterexample): `style_tree` does instantiate a node whose resolved
display is `None`: on `<div><p/></div>` with `p { display: none; }` the root's
styled child list has exactly the `p` node, and its resolved display is
`None` — the omission the claim describes does not happen in `style_tree`. -/
theorem c2_mirror_counterexample :
    (style_tree doc_c2 sheet_c2).children.map (fun t => t.display) = [Display.None] := by
  decide

/-- C2 (amended): the `StyledNode` tree returned by `style_tree` mirrors the
document node tree exactly — same child count and order at every node — with
no omission: nodes whose resolved display is `None` are instantiated too
(they are only skipped later, by `build_layout_tree`). -/
theorem c2_style_tree_shape_exact (root : Node) (stylesheet : Stylesheet) :
    shape_of_styled (style_tree root stylesheet) = shape_of_node root :=
  style_tree_shape stylesheet root

/-- C3: when `width` resolves to `auto`, any auto margin becomes 0; if the
underflow is nonnegative the content width equals the underflow, otherwise
the content width is 0 and the negative underflow is added to margin-right. -/
theorem c3_width_auto_case (style : StyledNode) (cb d : Dimensions)
    (hw : (style.value "width").getD auto = auto) :
    ((calculate_block_width style cb d).content.width
      = if 0 ≤ width_solver_underflow style cb then width_solver_underflow style cb else 0)
    ∧ ((calculate_block_width style cb d).margin.left
      = if style.lookup "margin-left" "margin" (Value.Length 0 Unit.Px) = auto then 0
        else (style.lookup "margin-left" "margin" (Value.Length 0 Unit.Px)).to_px)
    ∧ ((calculate_block_width style cb d).margin.right
      = (if style.lookup "margin-right" "margin" (Value.Length 0 Unit.Px) = auto then 0
        else (style.lookup "margin-right" "margin" (Value.Length 0 Unit.Px)).to_px)
        + (if 0 ≤ width_solver_underflow style cb then 0
           else width_solver_underflow style cb)) := by
  unfold width_solver_underflow
  unfold calculate_block_width
  dsimp only
  rw [if_neg (by rintro ⟨hne, -⟩; exact hne hw), if_neg (by rintro ⟨hne, -⟩; exact hne hw)]
  simp only [resolve_widths, value_beq_def, hw, eq_self_iff_true, decide_True, ge_iff_le,
    apply_ite Prod.fst, apply_ite (Prod.snd (α := Value) (β := Value × Value)),
    apply_ite Value.to_px, apply_ite (Prod.fst (α := Value) (β := Value)),
    apply_ite (Prod.snd (α := Value) (β := Value))]
  refine ⟨?_, ?_, ?_⟩
  · split <;> simp [Value.to_px]
  · split <;> simp [Value.to_px]
  · split <;> split <;> simp_all [Value.to_px]

/-- C3 (witness): containing content width 600 and `width:auto` with no
declared margins resolve to width 600 and margins 0. -/
theorem c3_width_auto_witness :
    (calculate_block_width style_c3 cb_600 default_dimensions).content.width = 600
    ∧ (calculate_block_width style_c3 cb_600 default_dimensions).margin.left = 0
    ∧ (calculate_block_width style_c3 cb_600 default_dimensions).margin.right = 0 := by
  have h := c3_width_auto_case style_c3 cb_600 default_dimensions (by rfl)
  have hu : width_solver_underflow style_c3 cb_600 = 600 := by
    norm_num [width_solver_underflow, style_c3, cb_600, StyledNode.lookup, StyledNode.value,
      StyledNode.specified_values, pm_get, List.find?, auto, Value.to_px, default_dimensions,
      default_rect]
  have hml : style_c3.lookup "margin-left" "margin" (Value.Length 0 Unit.Px)
      = Value.Length 0 Unit.Px := by
    simp [StyledNode.lookup, StyledNode.value, StyledNode.specified_values, style_c3, pm_get,
      List.find?]
  have hmr : style_c3.lookup "margin-right" "margin" (Value.Length 0 Unit.Px)
      = Value.Length 0 Unit.Px := by
    simp [StyledNode.lookup, StyledNode.value, StyledNode.specified_values, style_c3, pm_get,
      List.find?]
  rw [hu, hml, hmr] at h
  norm_num [length_eq_keyword, auto, Value.to_px] at h
  exact h

/-- C4: fixed width with both margins auto — when the box is not
over-constrained (total ≤ containing width, so the auto margins survive the
zeroing step), the underflow is split evenly between the two margins. -/
theorem c4_both_margins_auto (style : StyledNode) (cb d : Dimensions)
    (hw : (style.value "width").getD auto ≠ auto)
    (hml : style.lookup "margin-left" "margin" (Value.Length 0 Unit.Px) = auto)
    (hmr : style.lookup "margin-right" "margin" (Value.Length 0 Unit.Px) = auto)
    (hpos : 0 ≤ width_solver_underflow style cb) :
    (calculate_block_width style cb d).margin.left = width_solver_underflow style cb / 2
    ∧ (calculate_block_width style cb d).margin.right = width_solver_underflow style cb / 2
    ∧ (calculate_block_width style cb d).content.width
        = ((style.value "width").getD auto).to_px := by
  unfold width_solver_underflow at hpos ⊢
  unfold calculate_block_width
  dsimp only
  rw [if_neg (by rintro ⟨-, hgt, -⟩; linarith), if_neg (by rintro ⟨-, hgt, -⟩; linarith)]
  simp only [resolve_widths, value_beq_def, hml, hmr, hw, eq_self_iff_true, decide_True,
    decide_False, Value.to_px]
  exact ⟨trivial, trivial, trivial⟩

/-- C4 (witness): containing content width 600, `width:400px`,
`margin-left:auto`, `margin-right:auto` resolve to both margins = 100. -/
theorem c4_both_margins_auto_witness :
    (calculate_block_width style_c4 cb_600 default_dimensions).margin.left = 100
    ∧ (calculate_block_width style_c4 cb_600 default_dimensions).margin.right = 100 := by
  have hwv4 : (style_c4.value "width").getD auto = Value.Length 400 Unit.Px := by
    simp [StyledNode.value, StyledNode.specified_values, style_c4, pm_get, List.find?]
  have hml4 : style_c4.lookup "margin-left" "margin" (Value.Length 0 Unit.Px) = auto := by
    simp [StyledNode.lookup, StyledNode.value, StyledNode.specified_values, style_c4, pm_get,
      List.find?, auto]
  have hmr4 : style_c4.lookup "margin-right" "margin" (Value.Length 0 Unit.Px) = auto := by
    simp [StyledNode.lookup, StyledNode.value, StyledNode.specified_values, style_c4, pm_get,
      List.find?, auto]
  have hbl4 : style_c4.lookup "border-left-width" "border-width" (Value.Length 0 Unit.Px)
      = Value.Length 0 Unit.Px := by
    simp [StyledNode.lookup, StyledNode.value, StyledNode.specified_values, style_c4, pm_get,
      List.find?]
  have hbr4 : style_c4.lookup "border-right-width" "border-width" (Value.Length 0 Unit.Px)
      = Value.Length 0 Unit.Px := by
    simp [StyledNode.lookup, StyledNode.value, StyledNode.specified_values, style_c4, pm_get,
      List.find?]
  have hpl4 : style_c4.lookup "padding-left" "padding" (Value.Length 0 Unit.Px)
      = Value.Length 0 Unit.Px := by
    simp [StyledNode.lookup, StyledNode.value, StyledNode.specified_values, style_c4, pm_get,
      List.find?]
  have hpr4 : style_c4.lookup "padding-right" "padding" (Value.Length 0 Unit.Px)
      = Value.Length 0 Unit.Px := by
    simp [StyledNode.lookup, StyledNode.value, StyledNode.specified_values, style_c4, pm_get,
      List.find?]
  have hu : width_solver_underflow style_c4 cb_600 = 200 := by
    unfold width_solver_underflow
    rw [hwv4, hml4, hmr4, hbl4, hbr4, hpl4, hpr4]
    norm_num [auto, Value.to_px, cb_600, default_dimensions, default_rect]
  have h := c4_both_margins_auto style_c4 cb_600 default_dimensions (by decide) (by decide)
    (by decide) (by rw [hu]; norm_num)
  rw [hu] at h
  norm_num at h
  exact ⟨h.1, h.2.1⟩

/-- C5: cascade precedence, for every element, stylesheet and property name.
The resolved property map is last-write-wins over all declarations of the
matching rules (`pm_get (specified_values …) name` equals the last
declaration of `name` along the cascade's rule order, conjunct 1), and that
order is exactly the claim's: it contains precisely the matching rules
(conjunct 2, a permutation), it is ascending in attached specificity — so
"last" means highest specificity (conjunct 3) — and within any one
specificity the rules keep their stylesheet order — so for equal specificity
the rule appearing later in the stylesheet wins, in particular the later of
two equal-specificity matching rules wins every conflicting property
(conjunct 4, stability). -/
theorem c5_cascade_last_write_wins (elem : ElementData) (stylesheet : Stylesheet)
    (name : String) :
    pm_get (specified_values elem stylesheet) name
        = last_rules_value name
            (sort_by_le (fun a b => spec_le a.1 b.1) (matching_rules elem stylesheet))
    ∧ (sort_by_le (fun a b => spec_le a.1 b.1) (matching_rules elem stylesheet)).Perm
        (matching_rules elem stylesheet)
    ∧ List.Sorted (fun a b : Specificity × Rule => spec_le a.1 b.1 = true)
        (sort_by_le (fun a b => spec_le a.1 b.1) (matching_rules elem stylesheet))
    ∧ ∀ s : Specificity,
        (sort_by_le (fun a b => spec_le a.1 b.1) (matching_rules elem stylesheet)).filter
            (fun x => decide (x.1 = s))
          = (matching_rules elem stylesheet).filter (fun x => decide (x.1 = s)) := by
  refine ⟨?_, sort_by_le_perm _ _, sort_by_le_sorted _, fun s => sort_by_le_filter _ s⟩
  unfold specified_values
  dsimp only
  rw [pm_get_rules_foldl]
  cases last_rules_value name
      (sort_by_le (fun a b => spec_le a.1 b.1) (matching_rules elem stylesheet)) <;>
    rfl

/-- C6: a simple selector matches an element iff its tag name is absent or
equal to the element's tag, its id is absent or equal to the element's id
attribute, and every listed class is in the element's class set. -/
theorem c6_simple_selector_matches_iff (elem : ElementData) (selector : SimpleSelector) :
    matchs_simple_selector elem selector = true ↔
      (∀ name, selector.tag_name = some name → elem.tag_name = name) ∧
      (∀ i, selector.id = some i → elem.id = some i) ∧
      (∀ c ∈ selector.classes, c ∈ elem.classes) := by
  obtain ⟨tn, sid, cls⟩ := selector
  cases tn <;> cases sid <;>
    simp [matchs_simple_selector, Option.any, List.any_eq_true, bne_iff_ne]

/-- C7: vertical stacking — two sibling blocks of margin-box height 50 laid
out inside a containing block at `y = 0` get `content.y = 0` and
`content.y = 50` respectively. -/
theorem c7_vertical_stacking :
    (layout parent_block cb_200).children.map (fun c => c.dimensions.content.y) = [0, 50] := by
  have hwv : style_h50.value "width" = none := style_h50_value_ne _ (by decide)
  have hhv : style_h50.value "height" = some (Value.Length 50 Unit.Px) := by
    simp [StyledNode.value, StyledNode.specified_values, style_h50, pm_get, List.find?]
  have e1 : calculate_block_width parent_style cb_200 default_dimensions = dims_w200 := by
    norm_num [calculate_block_width, resolve_widths, parent_style, cb_200, StyledNode.lookup,
      StyledNode.value, StyledNode.specified_values, pm_get, List.find?, value_beq_def, auto,
      Value.to_px, default_dimensions, default_rect, default_edges, dims_w200]
  have e2 : calculate_block_position parent_style cb_200 dims_w200 = dims_w200 := by
    norm_num [calculate_block_position, parent_style, cb_200, StyledNode.lookup, StyledNode.value,
      StyledNode.specified_values, pm_get, List.find?, Value.to_px, default_dimensions,
      default_rect, default_edges, dims_w200]
  have e3 : ∀ cb : Dimensions, cb.content.width = 200 →
      calculate_block_width style_h50 cb default_dimensions = dims_w200 := by
    intro cb hcb
    unfold calculate_block_width
    dsimp only
    rw [hwv]
    rw [style_h50_lookup_ne "margin-left" "margin" (by decide) (by decide),
      style_h50_lookup_ne "margin-right" "margin" (by decide) (by decide),
      style_h50_lookup_ne "border-left-width" "border-width" (by decide) (by decide),
      style_h50_lookup_ne "border-right-width" "border-width" (by decide) (by decide),
      style_h50_lookup_ne "padding-left" "padding" (by decide) (by decide),
      style_h50_lookup_ne "padding-right" "padding" (by decide) (by decide)]
    norm_num [resolve_widths, value_beq_def, auto, Value.to_px, hcb, default_dimensions,
      default_rect, default_edges, dims_w200]
  have e4 : ∀ cb : Dimensions, calculate_block_position style_h50 cb dims_w200
      = { dims_w200 with content :=
          { dims_w200.content with x := cb.content.x, y := cb.content.height + cb.content.y } } := by
    intro cb
    unfold calculate_block_position
    dsimp only
    rw [style_h50_lookup_ne "margin-top" "margin" (by decide) (by decide),
      style_h50_lookup_ne "margin-bottom" "margin" (by decide) (by decide),
      style_h50_lookup_ne "border-top-width" "border-width" (by decide) (by decide),
      style_h50_lookup_ne "border-bottom-width" "border-width" (by decide) (by decide),
      style_h50_lookup_ne "padding-top" "padding" (by decide) (by decide),
      style_h50_lookup_ne "padding-bottom" "padding" (by decide) (by decide)]
    norm_num [Value.to_px, dims_w200, default_edges]
  have e5 : ∀ d : Dimensions, calculate_block_height style_h50 d
      = { d with content := { d.content with height := 50 } } := by
    intro d
    unfold calculate_block_height
    rw [hhv]
  have hm1 : dims_w200_h50.margin_box.height = 50 := by
    norm_num [Dimensions.margin_box, Dimensions.border_box, Dimensions.padding_box,
      Rect.expended_by, dims_w200_h50, default_edges]
  have e4a : calculate_block_position style_h50 dims_w200 dims_w200 = dims_w200 := by
    rw [e4]; norm_num [dims_w200]
  have e4b : calculate_block_position style_h50 dims_w200_h50 dims_w200 = dims_y50 := by
    rw [e4]; norm_num [dims_w200, dims_w200_h50, dims_y50]
  have e5a : calculate_block_height style_h50 dims_w200 = dims_w200_h50 := by
    rw [e5]; norm_num [dims_w200, dims_w200_h50]
  have e5b : calculate_block_height style_h50 dims_y50 = dims_y50_h50 := by
    rw [e5]; norm_num [dims_y50, dims_y50_h50]
  have hph : parent_style.value "height" = none := by
    simp [StyledNode.value, StyledNode.specified_values, parent_style, pm_get, List.find?]
  have eP : ∀ d : Dimensions, calculate_block_height parent_style d = d := by
    intro d; unfold calculate_block_height; rw [hph]
  simp only [parent_block, child_block, layout, layout_children]
  rw [e1, e2]
  rw [e3 dims_w200 (by norm_num [dims_w200]), e4a, e5a]
  simp only [LayoutBox.dimensions]
  have hrec1 : ({ dims_w200 with content := { dims_w200.content with
      height := dims_w200.content.height + dims_w200_h50.margin_box.height } } : Dimensions)
      = dims_w200_h50 := by
    rw [hm1]; norm_num [dims_w200, dims_w200_h50]
  rw [hrec1]
  rw [e3 dims_w200_h50 (by norm_num [dims_w200_h50]), e4b, e5b]
  rw [eP]
  simp [LayoutBox.dimensions, LayoutBox.children, dims_w200_h50, dims_y50_h50]

/-- C8: for a styled tree whose root's display is not `None`, every styled
node referenced anywhere in the layout tree built by `build_layout_tree` is
reachable without entering a `display:none` subtree, and its own display is
not `None` — so a `display:none` element and all of its descendants produce
no `LayoutBox` node at all. -/
theorem c8_display_none_excluded (sn : StyledNode) (b : LayoutBox)
    (hroot : sn.display ≠ Display.None) (hb : build_layout_tree sn = some b) :
    ∀ t ∈ referenced_nodes b, t ∈ admissible sn ∧ t.display ≠ Display.None :=
  fun t ht =>
    ⟨build_refs sn b hb t ht, admissible_display sn hroot t (build_refs sn b hb t ht)⟩

/-- C8 (witness): on the concrete tree with a `display:none` child (hiding a
block grandchild) and a block sibling, the built layout tree references only
admissible, non-`None` nodes; in particular the block sibling. -/
theorem c8_display_none_excluded_witness :
    sn_c8.display ≠ Display.None
    ∧ build_layout_tree sn_c8 = some box_c8
    ∧ block_child_c8 ∈ admissible sn_c8
    ∧ block_child_c8.display ≠ Display.None := by
  have hmem : block_child_c8 ∈ referenced_nodes box_c8 := by
    dsimp only [box_c8]
    simp [referenced_nodes_mk, referenced_nodes_list]
  have h := c8_display_none_excluded sn_c8 box_c8 (by decide) c8_build_eval block_child_c8 hmem
  exact ⟨by decide, c8_build_eval, h.1, h.2⟩

/-- C9: `parse` is total — every input yields either a complete stylesheet or
a fatal error, never a partial result — and each category of structurally
invalid input listed in the spec aborts the parse: an unexpected character in
a selector list, a missing `:`, `;`, `\x7b` or `\x7d`, an unrecognized unit,
a malformed or truncated hex color, and an unparsable numeric literal; a
well-formed stylesheet parses completely. -/
theorem c9_parse_failure_policy :
    (∀ source : String,
      (∃ sheet, parse source = Except.ok sheet) ∨ (∃ e, parse source = Except.error e))
    ∧ (parse "a b\x7bc:d;\x7d").isOk = false
    ∧ (parse "a\x7bb 1px;\x7d").isOk = false
    ∧ (parse "a\x7bb:c\x7d").isOk = false
    ∧ (parse "a\x7bb:c;").isOk = false
    ∧ (parse "a").isOk = false
    ∧ (parse "a\x7bb:1em;\x7d").isOk = false
    ∧ (parse "a\x7bb:#12345;\x7d").isOk = false
    ∧ (parse "a\x7bb:#12").isOk = false
    ∧ (parse "a\x7bb:1.2.3px;\x7d").isOk = false
    ∧ parse "a\x7bb:c;\x7d"
        = Except.ok ⟨[⟨[Selector.Simple ⟨some "a", none, []⟩],
            [⟨"b", Value.Keyword "c"⟩]⟩]⟩ := by
  refine ⟨fun source => ?_, by decide, by decide, by decide, by decide, by decide, by decide,
    by decide, by decide, by decide, by rfl⟩
  cases hp : parse source with
  | ok sheet => exact Or.inl ⟨sheet, rfl⟩
  | error e => exact Or.inr ⟨e, rfl⟩

/-- C10: after `calculate_block_width`, the resolved horizontal extents sum
exactly to the containing block's content width, for every style, containing
block and initial dimensions (every branch of the case analysis). -/
theorem c10_horizontal_sum (style : StyledNode) (cb d : Dimensions) :
    (calculate_block_width style cb d).margin.left
      + (calculate_block_width style cb d).border.left
      + (calculate_block_width style cb d).padding.left
      + (calculate_block_width style cb d).content.width
      + (calculate_block_width style cb d).padding.right
      + (calculate_block_width style cb d).border.right
      + (calculate_block_width style cb d).margin.right = cb.content.width := by
  unfold calculate_block_width
  dsimp only
  exact width_sum_core _ _ _ _ _ _ _ _ _ rfl

end ToyBrowser
